import Mathlib

/-!
Shallow embedding of `src/ClickBooster.py` (Minecraft Dynamic Click Assist &
Sensitivity Damper).  Timestamps, delays and sensitivity weights are modelled
as rationals; cursor coordinates as integers; the worker's randomness and its
environment (listening flag, clock, emission success) as explicit oracles.
-/

namespace ClickBooster

/-- Mouse buttons (`pynput.mouse.Button`). -/
inductive Button where
  | left
  | right
  | middle
deriving DecidableEq, Repr

/-- The configuration record (`DEFAULT_CONFIG` keys used by the core logic).
`TARGET_CPS_RANGE = (low, high)` is split into two fields. -/
structure Config where
  HARD_CPS_LIMIT : ℚ
  TARGET_CPS_LOW : ℚ
  TARGET_CPS_HIGH : ℚ
  TRIGGER_BUTTONS : List Button
  DOUBLE_CLICK_THRESHOLD : ℚ
  CPS_SLOWDOWN_THRESHOLD : ℚ
  SENS_MULTIPLIER : ℚ
  SENS_RAMP_DOWN_MS : ℚ
  SENS_RAMP_UP_MS : ℚ
  CPS_WINDOW_SECONDS : ℚ
  STALE_TIMEOUT_MS : ℚ
  POLLING_RATE_HZ : ℚ
deriving Repr

/-- `DEFAULT_CONFIG` from the source. -/
def defaultConfig : Config where
  HARD_CPS_LIMIT := 18
  TARGET_CPS_LOW := 15
  TARGET_CPS_HIGH := 17
  TRIGGER_BUTTONS := [Button.left, Button.right]
  DOUBLE_CLICK_THRESHOLD := 15/100
  CPS_SLOWDOWN_THRESHOLD := 10
  SENS_MULTIPLIER := 1/2
  SENS_RAMP_DOWN_MS := 40
  SENS_RAMP_UP_MS := 15
  CPS_WINDOW_SECONDS := 3/10
  STALE_TIMEOUT_MS := 100
  POLLING_RATE_HZ := 250

/-- The mutable state of `ClickSimulator` that the claims are about:
`total_click_history` (oldest first), `last_click_time`, the `_simulating`
flag and the `_work_queue` (front = next element the worker dequeues). -/
structure SimState where
  history : List ℚ
  last_click_time : ℚ
  simulating : Bool
  work_queue : List (Button × ℚ)
deriving DecidableEq, Repr

/-- `ClickSimulator.register_click_event`: record `now` as the last click time
and append it to the history. -/
def register_click_event (now : ℚ) (s : SimState) : SimState :=
  { s with last_click_time := now, history := s.history ++ [now] }

/-- `ClickSimulator.get_total_cps`: destructively evict from the front of the
history while the front entry is older than the window, then extrapolate the
retained count to a per-second rate (`0.0` when nothing remains).  Returns the
post-eviction history together with the rate. -/
def get_total_cps (cfg : Config) (now : ℚ) (history : List ℚ) : List ℚ × ℚ :=
  let h := history.dropWhile (fun t => decide (now - t > cfg.CPS_WINDOW_SECONDS))
  (h, if h.isEmpty then 0 else (h.length : ℚ) / cfg.CPS_WINDOW_SECONDS)

/-- `ClickSimulator._on_click`: ignore releases and non-trigger buttons;
record the click; bail out while `_simulating`; on a double click (gap from
the second-to-last retained timestamp within `DOUBLE_CLICK_THRESHOLD`) enqueue
a trigger signal, but only when the work queue is empty. -/
def onClick (cfg : Config) (s : SimState) (button : Button) (pressed : Bool)
    (now : ℚ) : SimState :=
  if pressed = false ∨ button ∉ cfg.TRIGGER_BUTTONS then s
  else
    let s1 := register_click_event now s
    if s1.simulating then s1
    else if s1.history.length > 1 then
      let prev_time := s1.history.getD (s1.history.length - 2) 0
      if now - prev_time ≤ cfg.DOUBLE_CLICK_THRESHOLD then
        if s1.work_queue.isEmpty then
          { s1 with work_queue := s1.work_queue ++ [(button, now)] }
        else s1
      else s1
    else s1

/-- The worker's `self._work_queue.get(...)`: the only dequeue in the program.
Returns the state with the front signal removed, and that signal (`none` on
timeout when the queue is empty). -/
def workerDequeue (s : SimState) : SimState × Option (Button × ℚ) :=
  match s.work_queue with
  | [] => (s, none)
  | x :: xs => ({ s with work_queue := xs }, some x)

/-! ## SensitivityEngine -/

/-- `1000 / POLLING_RATE_HZ`: the damping loop's tick period in milliseconds
(`polling_ms` in `SensitivityEngine.__init__`). -/
def polling_ms (cfg : Config) : ℚ := 1000 / cfg.POLLING_RATE_HZ

/-- `self.step_down = 1.0 / (SENS_RAMP_DOWN_MS / polling_ms)`. -/
def step_down (cfg : Config) : ℚ := 1 / (cfg.SENS_RAMP_DOWN_MS / polling_ms cfg)

/-- `self.step_up = 1.0 / (SENS_RAMP_UP_MS / polling_ms)`. -/
def step_up (cfg : Config) : ℚ := 1 / (cfg.SENS_RAMP_UP_MS / polling_ms cfg)

/-- The target weight chosen by one damping-loop tick: `multiplier` when the
click stream is active above threshold and not stale, else `1.0`
(`target_weight = self.multiplier if is_over_limit else 1.0`). -/
def loopTarget (cfg : Config) (current_cps time_since_last_ms : ℚ) : ℚ :=
  if current_cps ≥ cfg.CPS_SLOWDOWN_THRESHOLD ∧
      time_since_last_ms < cfg.STALE_TIMEOUT_MS then
    cfg.SENS_MULTIPLIER
  else 1

/-- The asymmetric ramp of one damping-loop tick: move `current_weight`
toward `target` by at most `step_down` when decreasing and `step_up` when
increasing, clamping at the target. -/
def rampTick (cfg : Config) (target w : ℚ) : ℚ :=
  if w > target then max target (w - step_down cfg)
  else if w < target then min target (w + step_up cfg)
  else w

/-- Integer cursor coordinates (the `POINT` structure). -/
structure Point where
  x : ℤ
  y : ℤ
deriving DecidableEq, Repr

/-- Python `int()` applied to a rational: truncation toward zero. -/
def intTrunc (q : ℚ) : ℤ := if 0 ≤ q then ⌊q⌋ else ⌈q⌉

/-- The cursor move a damping tick issues: nothing, or a relative
`mouse_event` move by `(dx, dy)`. -/
inductive MoveAction where
  | idle
  | move (dx dy : ℤ)
deriving DecidableEq, Repr

/-- Step 3 of `SensitivityEngine.loop` ("Apply Counter-Movement"), for one
tick with ramped weight `w` and previous `last_pos`.  `query` is the result
of `GetCursorPos` into a freshly zero-initialized `POINT`: `some curr` on
success, `none` on failure (in which case `curr_pos` keeps its zero
initialization and the code still assigns it to `last_pos`).  When
`w ≥ 0.995` the code instead reads the cursor directly into `last_pos`,
leaving it unchanged if that read fails.  Returns the new `last_pos` and the
move issued. -/
def applyCounterMove (w : ℚ) (last : Point) (query : Option Point) :
    Point × MoveAction :=
  if w < 995/1000 then
    match query with
    | some curr =>
      let dx : ℤ := curr.x - last.x
      let dy : ℤ := curr.y - last.y
      if dx ≠ 0 ∨ dy ≠ 0 then
        let pull_back := w - 1
        let rx : ℚ := dx * pull_back
        let ry : ℚ := dy * pull_back
        if 1 ≤ |rx| ∨ 1 ≤ |ry| then
          (⟨curr.x + intTrunc rx, curr.y + intTrunc ry⟩,
           MoveAction.move (intTrunc rx) (intTrunc ry))
        else (curr, MoveAction.idle)
      else (curr, MoveAction.idle)
    | none => (⟨0, 0⟩, MoveAction.idle)
  else
    match query with
    | some curr => (curr, MoveAction.idle)
    | none => (last, MoveAction.idle)

/-! ## SimulationWorker -/

/-- Synthetic button events emitted by the worker. -/
inductive Ev where
  | press (b : Button)
  | release (b : Button)
deriving DecidableEq, Repr

/-- Oracle for `random`: call-indexed so distinct calls may return distinct
values.  `randint i a b` models the i-th `random.randint(a, b)` (inclusive
bounds); `uniform i a b` the i-th `random.uniform(a, b)`. -/
structure Rng where
  randint : ℕ → ℕ → ℕ → ℕ
  uniform : ℕ → ℚ → ℚ → ℚ

/-- What Python's `random` guarantees: results stay within the requested
(inclusive) bounds. -/
def Rng.Valid (g : Rng) : Prop :=
  (∀ i a b, a ≤ b → a ≤ g.randint i a b ∧ g.randint i a b ≤ b) ∧
  (∀ i (a b : ℚ), a ≤ b → a ≤ g.uniform i a b ∧ g.uniform i a b ≤ b)

/-- The worker's environment: its randomness, the value of `_is_listening`
it observes at the top of each burst unit, the `time.perf_counter()` value
at each `register_click_event`, and whether the `press`/`release` calls of
each unit return normally (`false` = the call raises). -/
structure Env where
  rng : Rng
  listening : ℕ → Bool
  clock : ℕ → ℚ
  pressOk : ℕ → Bool
  releaseOk : ℕ → Bool

/-- One pass over the burst's `for _ in range(clicks_to_add)` loop with `k`
iterations remaining, current unit index `i` and simulator state `s`:
check `_is_listening` (break when false), sample the pre-click delay
`uniform (1/high) (1/low)`, sleep `max 0 (delay - 0.015)`, press (which may
raise), `register_click_event`, sleep the hold time, release (which may
raise).  Returns the final state, the emitted button events, the pre-click
sleep durations, and whether an exception escaped the loop. -/
def burstUnits (cfg : Config) (env : Env) (b : Button) :
    ℕ → ℕ → SimState → SimState × List Ev × List ℚ × Bool
  | 0, _, s => (s, [], [], false)
  | k + 1, i, s =>
    if env.listening i = false then (s, [], [], false)
    else
      let min_delay := 1 / cfg.TARGET_CPS_HIGH
      let max_delay := 1 / cfg.TARGET_CPS_LOW
      let delay := env.rng.uniform (2 * i) min_delay max_delay
      let preSleep := max 0 (delay - 15/1000)
      if env.pressOk i = false then (s, [], [preSleep], true)
      else
        let s1 := register_click_event (env.clock i) s
        let _hold := env.rng.uniform (2 * i + 1) (1/100) (2/100)
        if env.releaseOk i = false then (s1, [Ev.press b], [preSleep], true)
        else
          let r := burstUnits cfg env b k (i + 1) s1
          (r.1, Ev.press b :: Ev.release b :: r.2.1, preSleep :: r.2.2.1,
           r.2.2.2)

/-- The `_worker_loop` body once a signal `(b, _)` has been dequeued: set
`_simulating`, draw `clicks_to_add = randint(2, 4)`, run the burst, and clear
`_simulating` in the `finally` block — which runs on normal completion, on
the early `break`, and when an exception propagates out of the loop.
Returns the final state, the event trace, the pre-click sleeps, and the
exception flag. -/
def workerBody (cfg : Config) (env : Env) (s : SimState) (b : Button) :
    SimState × List Ev × List ℚ × Bool :=
  let s1 := { s with simulating := true }
  let clicks_to_add := env.rng.randint 0 2 4
  let r := burstUnits cfg env b clicks_to_add 0 s1
  ({ r.1 with simulating := false }, r.2.1, r.2.2.1, r.2.2.2)

/-! ## Helper lemmas -/

/-- On a sorted (oldest-first) history, the lazy front-eviction loop of
`get_total_cps` removes exactly the timestamps older than the window. -/
theorem dropWhile_stale_eq_filter (now W : ℚ) :
    ∀ l : List ℚ, l.Pairwise (· ≤ ·) →
      l.dropWhile (fun t => decide (now - t > W)) =
        l.filter (fun t => decide (now - t ≤ W)) := by
  intro l
  induction l with
  | nil => intro _; rfl
  | cons x xs ih =>
    intro hs
    rw [List.pairwise_cons] at hs
    by_cases hx : now - x > W
    · rw [List.dropWhile_cons_of_pos (by simpa using hx),
        List.filter_cons_of_neg (by simpa using not_le.mpr hx)]
      exact ih hs.2
    · rw [List.dropWhile_cons_of_neg (by simpa using hx),
        List.filter_cons_of_pos (by simpa using not_lt.mp hx)]
      have hxs : xs.filter (fun t => decide (now - t ≤ W)) = xs := by
        rw [List.filter_eq_self]
        intro t ht
        have hxt := hs.1 t ht
        have : now - x ≤ W := not_lt.mp hx
        simp only [decide_eq_true_eq]
        linarith
      rw [hxs]

/-- Every way `_on_click` can leave the work queue: unchanged, or (only when
`simulating` is false and the queue was empty) exactly one new signal. -/
theorem onClick_work_queue_cases (cfg : Config) (s : SimState) (b : Button)
    (p : Bool) (now : ℚ) :
    (onClick cfg s b p now).work_queue = s.work_queue ∨
    (s.simulating = false ∧ s.work_queue = [] ∧
      (onClick cfg s b p now).work_queue = [(b, now)]) := by
  unfold onClick register_click_event
  split
  · exact Or.inl rfl
  · dsimp only
    split
    · exact Or.inl rfl
    · split
      · split
        · split
          · rename_i hemp
            refine Or.inr ⟨by simp_all, ?_, ?_⟩
            · exact List.isEmpty_iff.mp hemp
            · simp [List.isEmpty_iff.mp hemp]
          · exact Or.inl rfl
        · exact Or.inl rfl
      · exact Or.inl rfl

/-! ## Claim theorems -/

/-- C2: on an oldest-first (sorted) history, `get_total_cps` retains exactly
the timestamps within the window (the evicted entries are exactly the stale
prefix), returns `retained.length / W` (or `0.0` when none remain), and never
increases the retained count. -/
theorem get_total_cps_spec (cfg : Config) (now : ℚ) (history : List ℚ)
    (hs : history.Pairwise (· ≤ ·)) :
    (get_total_cps cfg now history).1 =
      history.filter (fun t => decide (now - t ≤ cfg.CPS_WINDOW_SECONDS)) ∧
    (∀ t ∈ history.takeWhile
        (fun t => decide (now - t > cfg.CPS_WINDOW_SECONDS)),
      now - t > cfg.CPS_WINDOW_SECONDS) ∧
    history.takeWhile (fun t => decide (now - t > cfg.CPS_WINDOW_SECONDS)) ++
      (get_total_cps cfg now history).1 = history ∧
    (get_total_cps cfg now history).2 =
      (if (get_total_cps cfg now history).1 = [] then 0
       else ((get_total_cps cfg now history).1.length : ℚ) /
         cfg.CPS_WINDOW_SECONDS) ∧
    (get_total_cps cfg now history).1.length ≤ history.length := by
  have h1 : (get_total_cps cfg now history).1 =
      history.filter (fun t => decide (now - t ≤ cfg.CPS_WINDOW_SECONDS)) :=
    dropWhile_stale_eq_filter now cfg.CPS_WINDOW_SECONDS history hs
  refine ⟨h1, ?_, ?_, ?_, ?_⟩
  · intro t ht
    simpa using List.mem_takeWhile_imp ht
  · exact List.takeWhile_append_dropWhile ..
  · show (if (history.dropWhile _).isEmpty then (0 : ℚ) else _) = _
    by_cases hemp : (get_total_cps cfg now history).1 = []
    · rw [if_pos (by simpa [get_total_cps, List.isEmpty_iff] using hemp),
        if_pos hemp]
    · rw [if_neg (by simpa [get_total_cps, List.isEmpty_iff] using hemp),
        if_neg hemp]
      rfl
  · rw [h1]
    exact List.length_filter_le _ _

/-- Witness for C2 at a concrete sorted history. -/
theorem get_total_cps_spec_witness :
    ([(0 : ℚ), 1/10, 2/10].Pairwise (· ≤ ·)) ∧
    (get_total_cps defaultConfig (2/5) [0, 1/10, 2/10]).1 =
      [(0 : ℚ), 1/10, 2/10].filter
        (fun t => decide ((2 : ℚ)/5 - t ≤ defaultConfig.CPS_WINDOW_SECONDS)) :=
  ⟨by norm_num [List.pairwise_cons],
   (get_total_cps_spec defaultConfig (2/5) [0, 1/10, 2/10]
     (by norm_num [List.pairwise_cons])).1⟩

/-- C1: `_on_click` never enqueues while `simulating` is true; it enqueues
only when the queue is empty; so along any sequence of click events the queue
holds at most one pending signal; and the worker's dequeue never grows the
queue. -/
theorem trigger_queue_invariant (cfg : Config) (s : SimState) (b : Button)
    (p : Bool) (now : ℚ) :
    (s.simulating = true → (onClick cfg s b p now).work_queue = s.work_queue) ∧
    ((onClick cfg s b p now).work_queue ≠ s.work_queue →
      s.work_queue = [] ∧ (onClick cfg s b p now).work_queue = [(b, now)]) ∧
    (∀ clicks : List (Button × Bool × ℚ), s.work_queue.length ≤ 1 →
      (clicks.foldl (fun st c => onClick cfg st c.1 c.2.1 c.2.2)
          s).work_queue.length ≤ 1) ∧
    (workerDequeue s).1.work_queue.length ≤ s.work_queue.length := by
  refine ⟨?_, ?_, ?_, ?_⟩
  · intro hsim
    rcases onClick_work_queue_cases cfg s b p now with h | ⟨hf, _, _⟩
    · exact h
    · rw [hsim] at hf; cases hf
  · intro hne
    rcases onClick_work_queue_cases cfg s b p now with h | ⟨_, hq, h⟩
    · exact absurd h hne
    · exact ⟨hq, h⟩
  · intro clicks
    induction clicks generalizing s with
    | nil => intro h; simpa using h
    | cons c cs ih =>
      intro h
      rw [List.foldl_cons]
      apply ih
      rcases onClick_work_queue_cases cfg s c.1 c.2.1 c.2.2 with h' | ⟨_, _, h'⟩
      · rw [h']; exact h
      · rw [h']; simp
  · obtain ⟨hist, lct, sim, q⟩ := s
    cases q <;> simp [workerDequeue]

/-- Witness for C1 at concrete states: no enqueue while simulating, and a
two-click sequence keeps the queue at length at most one. -/
theorem trigger_queue_invariant_witness :
    (onClick defaultConfig ⟨[0], 0, true, []⟩ Button.left true (1/10)).work_queue
      = ([] : List (Button × ℚ)) ∧
    (List.foldl (fun st c => onClick defaultConfig st c.1 c.2.1 c.2.2)
      ⟨[], 0, false, []⟩
      [(Button.left, true, 0), (Button.left, true, (1 : ℚ)/10)]
        ).work_queue.length ≤ 1 :=
  ⟨(trigger_queue_invariant defaultConfig ⟨[0], 0, true, []⟩ Button.left true
      (1/10)).1 rfl,
   (trigger_queue_invariant defaultConfig ⟨[], 0, false, []⟩ Button.left true
      0).2.2.1 [(Button.left, true, 0), (Button.left, true, (1 : ℚ)/10)]
      (by decide)⟩

/-- C6 as stated is false: all of its conditions (qualifying press,
`simulating = false`, two retained timestamps with gap within the threshold)
can hold while a signal is still pending in the queue, and then `_on_click`
enqueues nothing — not "exactly one" signal. -/
theorem onClick_double_click_counterexample :
    (false = false ∧ Button.left ∈ defaultConfig.TRIGGER_BUTTONS) ∧
    1 < (onClick defaultConfig ⟨[0, 1/10], 1/10, false, [(Button.left, 0)]⟩
      Button.left true (1/5)).history.length ∧
    (1 : ℚ)/5 - (1/10 : ℚ) ≤ defaultConfig.DOUBLE_CLICK_THRESHOLD ∧
    (onClick defaultConfig ⟨[0, 1/10], 1/10, false, [(Button.left, 0)]⟩
      Button.left true (1/5)).work_queue = [(Button.left, 0)] := by
  refine ⟨⟨rfl, by simp [defaultConfig]⟩, ?_, by norm_num [defaultConfig], ?_⟩
  · norm_num [onClick, register_click_event, defaultConfig, List.getD]
  · norm_num [onClick, register_click_event, defaultConfig, List.getD]

/-- C6 amended: for a qualifying press with `simulating` false and, in
addition, an empty work queue, `_on_click` enqueues exactly one signal when at
least two timestamps are retained and the gap is within the threshold,
nothing when the gap exceeds it, and nothing when fewer than two timestamps
are retained. -/
theorem onClick_double_click (cfg : Config) (s : SimState) (b : Button)
    (now : ℚ) (hb : b ∈ cfg.TRIGGER_BUTTONS) (hsim : s.simulating = false)
    (hq : s.work_queue = []) :
    (1 ≤ s.history.length →
      (now - s.history.getD (s.history.length - 1) 0 ≤
          cfg.DOUBLE_CLICK_THRESHOLD →
        (onClick cfg s b true now).work_queue = [(b, now)]) ∧
      (cfg.DOUBLE_CLICK_THRESHOLD <
          now - s.history.getD (s.history.length - 1) 0 →
        (onClick cfg s b true now).work_queue = [])) ∧
    (s.history.length = 0 → (onClick cfg s b true now).work_queue = []) := by
  unfold onClick register_click_event
  rw [if_neg (by simp [hb])]
  dsimp only
  rw [if_neg (by simp [hsim])]
  constructor
  · intro hlen
    have hgt : (s.history ++ [now]).length > 1 := by
      simp only [List.length_append, List.length_cons, List.length_nil]
      omega
    rw [if_pos hgt]
    have hprev : (s.history ++ [now]).getD ((s.history ++ [now]).length - 2) 0
        = s.history.getD (s.history.length - 1) 0 := by
      have hlt : s.history.length - 1 < s.history.length := by omega
      rw [List.length_append]
      simp only [List.length_cons, List.length_nil]
      rw [show s.history.length + 1 - 2 = s.history.length - 1 by omega]
      exact List.getD_append _ _ _ _ hlt
    rw [hprev]
    constructor
    · intro hgap
      rw [if_pos hgap, if_pos (by simp [hq, List.isEmpty_iff])]
      simp [hq]
    · intro hgap
      rw [if_neg (not_le.mpr hgap)]
      exact hq
  · intro hlen
    rw [if_neg (by simp [hlen])]
    exact hq

/-- Witness for the amended C6: a double click within the threshold on an
empty queue enqueues exactly one signal. -/
theorem onClick_double_click_witness :
    ((onClick defaultConfig ⟨[0], 0, false, []⟩ Button.left true
        (1/10)).work_queue = [(Button.left, 1/10)]) ∧
    ((onClick defaultConfig ⟨[0], 0, false, []⟩ Button.left true
        (1/4)).work_queue = []) ∧
    ((onClick defaultConfig ⟨[], 0, false, []⟩ Button.left true
        (1/10)).work_queue = []) :=
  ⟨((onClick_double_click defaultConfig ⟨[0], 0, false, []⟩ Button.left (1/10)
      (by simp [defaultConfig]) rfl rfl).1 (by simp)).1
      (by norm_num [defaultConfig, List.getD]),
   ((onClick_double_click defaultConfig ⟨[0], 0, false, []⟩ Button.left (1/4)
      (by simp [defaultConfig]) rfl rfl).1 (by simp)).2
      (by norm_num [defaultConfig, List.getD]),
   (onClick_double_click defaultConfig ⟨[], 0, false, []⟩ Button.left (1/10)
      (by simp [defaultConfig]) rfl rfl).2 rfl⟩

/-- C3: however the burst ends — full completion, early exit on the
listening flag, or an exception escaping the loop (all captured by the
environment) — the `finally` block leaves `_simulating` false when the
worker-loop body returns. -/
theorem workerBody_clears_simulating (cfg : Config) (env : Env) (s : SimState)
    (b : Button) : (workerBody cfg env s b).1.simulating = false := rfl

/-- Every pre-click sleep produced by the burst loop lies between
`max 0 (1/targetCpsHigh − 0.015)` and `max 0 (1/targetCpsLow − 0.015)`. -/
theorem burstUnits_preSleep_bounds (cfg : Config) (env : Env) (b : Button)
    (hv : env.rng.Valid) (hlo : 0 < cfg.TARGET_CPS_LOW)
    (hlh : cfg.TARGET_CPS_LOW ≤ cfg.TARGET_CPS_HIGH) :
    ∀ (k i : ℕ) (s : SimState) (d : ℚ),
      d ∈ (burstUnits cfg env b k i s).2.2.1 →
      max 0 (1 / cfg.TARGET_CPS_HIGH - 15/1000) ≤ d ∧
      d ≤ max 0 (1 / cfg.TARGET_CPS_LOW - 15/1000) := by
  have hinv : 1 / cfg.TARGET_CPS_HIGH ≤ 1 / cfg.TARGET_CPS_LOW :=
    one_div_le_one_div_of_le hlo hlh
  have key : ∀ i : ℕ,
      max 0 (1 / cfg.TARGET_CPS_HIGH - 15/1000) ≤
        max 0 (env.rng.uniform (2 * i) (1 / cfg.TARGET_CPS_HIGH)
          (1 / cfg.TARGET_CPS_LOW) - 15/1000) ∧
      max 0 (env.rng.uniform (2 * i) (1 / cfg.TARGET_CPS_HIGH)
          (1 / cfg.TARGET_CPS_LOW) - 15/1000) ≤
        max 0 (1 / cfg.TARGET_CPS_LOW - 15/1000) := by
    intro i
    obtain ⟨hu1, hu2⟩ := hv.2 (2 * i) _ _ hinv
    exact ⟨max_le_max le_rfl (by linarith), max_le_max le_rfl (by linarith)⟩
  intro k
  induction k with
  | zero => intro i s d hd; simp [burstUnits] at hd
  | succ k ih =>
    intro i s d hd
    cases hl : env.listening i with
    | false => simp [burstUnits, hl] at hd
    | true =>
      cases hp : env.pressOk i with
      | false =>
        simp [burstUnits, hl, hp] at hd
        subst hd
        simpa using key i
      | true =>
        cases hr : env.releaseOk i with
        | false =>
          simp [burstUnits, hl, hp, hr] at hd
          subst hd
          simpa using key i
        | true =>
          simp [burstUnits, hl, hp, hr] at hd
          rcases hd with hd | hd
          · subst hd
            simpa using key i
          · exact ih (i + 1) _ d hd

/-- C8: the drawn burst size is 2, 3 or 4, and every pre-click sleep lies in
`[max 0 (1/targetCpsHigh − 0.015), max 0 (1/targetCpsLow − 0.015)]` where
`0.015` is the fixed processing-time offset. -/
theorem workerBody_burst_spec (cfg : Config) (env : Env) (s : SimState)
    (b : Button) (hv : env.rng.Valid) (hlo : 0 < cfg.TARGET_CPS_LOW)
    (hlh : cfg.TARGET_CPS_LOW ≤ cfg.TARGET_CPS_HIGH) :
    (env.rng.randint 0 2 4 = 2 ∨ env.rng.randint 0 2 4 = 3 ∨
      env.rng.randint 0 2 4 = 4) ∧
    ∀ d ∈ (workerBody cfg env s b).2.2.1,
      max 0 (1 / cfg.TARGET_CPS_HIGH - 15/1000) ≤ d ∧
      d ≤ max 0 (1 / cfg.TARGET_CPS_LOW - 15/1000) := by
  constructor
  · have h := hv.1 0 2 4 (by norm_num)
    omega
  · intro d hd
    exact burstUnits_preSleep_bounds cfg env b hv hlo hlh _ 0 _ d hd

/-- A deterministic environment for evaluating the worker: every random draw
returns its lower bound, the listener stays on, and no emission raises. -/
def envW : Env where
  rng := ⟨fun _ a _ => a, fun _ a _ => a⟩
  listening := fun _ => true
  clock := fun _ => 0
  pressOk := fun _ => true
  releaseOk := fun _ => true

/-- The lower-bound oracle is valid. -/
theorem envW_rng_valid : envW.rng.Valid :=
  ⟨fun _ _ _ h => ⟨le_rfl, h⟩, fun _ _ _ h => ⟨le_rfl, h⟩⟩

/-- Witness for C8 at the default configuration and a concrete valid
environment. -/
theorem workerBody_burst_spec_witness :
    (envW.rng.randint 0 2 4 = 2 ∨ envW.rng.randint 0 2 4 = 3 ∨
      envW.rng.randint 0 2 4 = 4) ∧
    ∀ d ∈ (workerBody defaultConfig envW ⟨[], 0, false, []⟩
        Button.left).2.2.1,
      max 0 (1 / defaultConfig.TARGET_CPS_HIGH - 15/1000) ≤ d ∧
      d ≤ max 0 (1 / defaultConfig.TARGET_CPS_LOW - 15/1000) :=
  workerBody_burst_spec defaultConfig envW ⟨[], 0, false, []⟩ Button.left
    envW_rng_valid (by norm_num [defaultConfig]) (by norm_num [defaultConfig])

/-- When no emission raises, the burst's event trace is a concatenation of
complete press–release pairs, one per executed unit (the stop check sits at
the top of each unit, before the press). -/
theorem burstUnits_pairs (cfg : Config) (env : Env) (b : Button)
    (hp : ∀ j, env.pressOk j = true) (hr : ∀ j, env.releaseOk j = true) :
    ∀ (k i : ℕ) (s : SimState), ∃ m ≤ k,
      (burstUnits cfg env b k i s).2.1 =
        (List.replicate m [Ev.press b, Ev.release b]).flatten := by
  intro k
  induction k with
  | zero => intro i s; exact ⟨0, le_rfl, by simp [burstUnits]⟩
  | succ k ih =>
    intro i s
    cases hl : env.listening i with
    | false => exact ⟨0, Nat.zero_le _, by simp [burstUnits, hl]⟩
    | true =>
      obtain ⟨m, hm, hev⟩ := ih (i + 1) (register_click_event (env.clock i) s)
      refine ⟨m + 1, by omega, ?_⟩
      simp [burstUnits, hl, hp i, hr i, List.replicate_succ, hev]

/-- C10: even when the listening flag goes false mid-burst, the worker's
synthetic trace closes every press with its matching release, since the stop
check happens only at the top of each burst unit. -/
theorem workerBody_press_release_pairs (cfg : Config) (env : Env)
    (s : SimState) (b : Button) (hp : ∀ j, env.pressOk j = true)
    (hr : ∀ j, env.releaseOk j = true) :
    ∃ m ≤ env.rng.randint 0 2 4,
      (workerBody cfg env s b).2.1 =
        (List.replicate m [Ev.press b, Ev.release b]).flatten :=
  burstUnits_pairs cfg env b hp hr (env.rng.randint 0 2 4) 0
    { s with simulating := true }

/-- Witness for C10 at a concrete environment with the listener on and no
raising emissions. -/
theorem workerBody_press_release_pairs_witness :
    ∃ m ≤ envW.rng.randint 0 2 4,
      (workerBody defaultConfig envW ⟨[], 0, false, []⟩ Button.left).2.1 =
        (List.replicate m [Ev.press Button.left, Ev.release Button.left]).flatten :=
  workerBody_press_release_pairs defaultConfig envW ⟨[], 0, false, []⟩
    Button.left (fun _ => rfl) (fun _ => rfl)

/-- One ramp step keeps the weight inside `[multiplier, 1]` when the target
is either the multiplier or `1.0`. -/
theorem rampTick_mem (cfg : Config) (target w : ℚ)
    (hm : cfg.SENS_MULTIPLIER ≤ 1)
    (ht : target = cfg.SENS_MULTIPLIER ∨ target = 1)
    (hd : 0 ≤ step_down cfg) (hu : 0 ≤ step_up cfg)
    (hw1 : cfg.SENS_MULTIPLIER ≤ w) (hw2 : w ≤ 1) :
    cfg.SENS_MULTIPLIER ≤ rampTick cfg target w ∧
      rampTick cfg target w ≤ 1 := by
  have htm : cfg.SENS_MULTIPLIER ≤ target := by
    rcases ht with h | h
    · exact h ▸ le_rfl
    · exact h ▸ hm
  have ht1 : target ≤ 1 := by
    rcases ht with h | h
    · exact h ▸ hm
    · exact h ▸ le_rfl
  unfold rampTick
  split_ifs with h1 h2
  · exact ⟨le_trans htm (le_max_left _ _), max_le ht1 (by linarith)⟩
  · exact ⟨le_min htm (by linarith), le_trans (min_le_left _ _) ht1⟩
  · exact ⟨hw1, hw2⟩

/-- C7: starting from weight `1.0`, after any sequence of damping-loop ticks
(each selecting its target from the current CPS estimate and staleness, then
ramping toward it) the weight stays in the closed interval
`[multiplier, 1.0]`. -/
theorem weight_bounded (cfg : Config) (hm : cfg.SENS_MULTIPLIER ≤ 1)
    (hd : 0 ≤ step_down cfg) (hu : 0 ≤ step_up cfg) (ticks : List (ℚ × ℚ)) :
    cfg.SENS_MULTIPLIER ≤
        ticks.foldl (fun w t => rampTick cfg (loopTarget cfg t.1 t.2) w) 1 ∧
      ticks.foldl (fun w t => rampTick cfg (loopTarget cfg t.1 t.2) w) 1
        ≤ 1 := by
  suffices h : ∀ w, cfg.SENS_MULTIPLIER ≤ w → w ≤ 1 →
      cfg.SENS_MULTIPLIER ≤
          ticks.foldl (fun w t => rampTick cfg (loopTarget cfg t.1 t.2) w) w ∧
        ticks.foldl (fun w t => rampTick cfg (loopTarget cfg t.1 t.2) w) w
          ≤ 1 by
    exact h 1 hm le_rfl
  induction ticks with
  | nil => intro w h1 h2; exact ⟨h1, h2⟩
  | cons t ts ih =>
    intro w h1 h2
    rw [List.foldl_cons]
    have htarget : loopTarget cfg t.1 t.2 = cfg.SENS_MULTIPLIER ∨
        loopTarget cfg t.1 t.2 = 1 := by
      unfold loopTarget
      split_ifs <;> simp
    obtain ⟨g1, g2⟩ := rampTick_mem cfg _ w hm htarget hd hu h1 h2
    exact ih _ g1 g2

/-- Witness for C7 at the default configuration over a concrete tick
sequence (damping engages, then the stream goes stale). -/
theorem weight_bounded_witness :
    defaultConfig.SENS_MULTIPLIER ≤
        [((20 : ℚ), (0 : ℚ)), (20, 0), (0, 200)].foldl
          (fun w t => rampTick defaultConfig
            (loopTarget defaultConfig t.1 t.2) w) 1 ∧
      [((20 : ℚ), (0 : ℚ)), (20, 0), (0, 200)].foldl
          (fun w t => rampTick defaultConfig
            (loopTarget defaultConfig t.1 t.2) w) 1 ≤ 1 :=
  weight_bounded defaultConfig (by norm_num [defaultConfig])
    (by norm_num [step_down, polling_ms, defaultConfig])
    (by norm_num [step_up, polling_ms, defaultConfig])
    [((20 : ℚ), (0 : ℚ)), (20, 0), (0, 200)]

/-- Closed form of the sustained down-ramp: after `k` ticks with target
`multiplier`, the weight starting from `1.0` is
`max multiplier (1 − k·step_down)`. -/
theorem rampTick_iterate_down (cfg : Config) (hm : cfg.SENS_MULTIPLIER ≤ 1)
    (hd : 0 ≤ step_down cfg) :
    ∀ k : ℕ, (rampTick cfg cfg.SENS_MULTIPLIER)^[k] 1 =
      max cfg.SENS_MULTIPLIER (1 - k * step_down cfg) := by
  intro k
  induction k with
  | zero => simp [max_eq_right hm]
  | succ k ih =>
    rw [Function.iterate_succ_apply', ih]
    unfold rampTick
    rcases le_or_lt (1 - k * step_down cfg) cfg.SENS_MULTIPLIER with h | h
    · rw [max_eq_left h, if_neg (lt_irrefl _), if_neg (lt_irrefl _),
        max_eq_left (by push_cast; nlinarith)]
    · rw [max_eq_right h.le, if_pos h]
      rw [show (1 : ℚ) - k * step_down cfg - step_down cfg =
        1 - (k + 1 : ℕ) * step_down cfg by push_cast; ring]

/-- Closed form of the sustained up-ramp: after `k` ticks with target `1.0`,
the weight starting from the multiplier is
`min 1 (multiplier + k·step_up)`. -/
theorem rampTick_iterate_up (cfg : Config) (hm : cfg.SENS_MULTIPLIER ≤ 1)
    (hu : 0 ≤ step_up cfg) :
    ∀ k : ℕ, (rampTick cfg 1)^[k] cfg.SENS_MULTIPLIER =
      min 1 (cfg.SENS_MULTIPLIER + k * step_up cfg) := by
  intro k
  induction k with
  | zero => simp [min_eq_right hm]
  | succ k ih =>
    rw [Function.iterate_succ_apply', ih]
    unfold rampTick
    rcases le_or_lt 1 (cfg.SENS_MULTIPLIER + k * step_up cfg) with h | h
    · rw [min_eq_left h, if_neg (lt_irrefl _), if_neg (lt_irrefl _),
        min_eq_left (by push_cast; nlinarith)]
    · rw [min_eq_right h.le, if_neg (by linarith), if_pos h]
      rw [show cfg.SENS_MULTIPLIER + k * step_up cfg + step_up cfg =
        cfg.SENS_MULTIPLIER + (k + 1 : ℕ) * step_up cfg by push_cast; ring]

/-- C4 is false on the code at the default configuration: the sustained
down-ramp from `1.0` to the multiplier `0.5` is already complete after 5
ticks (20 ms of the 4 ms tick period) and not one tick earlier, yet
`SENS_RAMP_DOWN_MS = 40`; 20 ms is not within one tick-period of 40 ms. -/
theorem ramp_duration_counterexample :
    (rampTick defaultConfig defaultConfig.SENS_MULTIPLIER)^[5] 1 =
      defaultConfig.SENS_MULTIPLIER ∧
    (rampTick defaultConfig defaultConfig.SENS_MULTIPLIER)^[4] 1 ≠
      defaultConfig.SENS_MULTIPLIER ∧
    ¬ (defaultConfig.SENS_RAMP_DOWN_MS - polling_ms defaultConfig ≤
        5 * polling_ms defaultConfig) := by
  refine ⟨?_, ?_, ?_⟩
  · rw [rampTick_iterate_down defaultConfig (by norm_num [defaultConfig])
      (by norm_num [step_down, polling_ms, defaultConfig])]
    norm_num [step_down, polling_ms, defaultConfig]
  · rw [rampTick_iterate_down defaultConfig (by norm_num [defaultConfig])
      (by norm_num [step_down, polling_ms, defaultConfig])]
    norm_num [step_down, polling_ms, defaultConfig]
  · norm_num [polling_ms, defaultConfig]

/-- C4 amended: with `step_down = 1/(RAMP_DOWN_MS/tickMs)` the sustained
down-ramp from `1.0` reaches the multiplier exactly once the elapsed time
`n·tickMs` reaches `(1 − multiplier)·RAMP_DOWN_MS` — not `RAMP_DOWN_MS` —
and the sustained up-ramp reaches `1.0` exactly once it reaches
`(1 − multiplier)·RAMP_UP_MS`. -/
theorem ramp_durations (cfg : Config) (hpoll : 0 < cfg.POLLING_RATE_HZ)
    (hrd : 0 < cfg.SENS_RAMP_DOWN_MS) (hru : 0 < cfg.SENS_RAMP_UP_MS)
    (hm : cfg.SENS_MULTIPLIER ≤ 1) (n : ℕ) :
    ((rampTick cfg cfg.SENS_MULTIPLIER)^[n] 1 = cfg.SENS_MULTIPLIER ↔
      (1 - cfg.SENS_MULTIPLIER) * cfg.SENS_RAMP_DOWN_MS ≤
        n * polling_ms cfg) ∧
    ((rampTick cfg 1)^[n] cfg.SENS_MULTIPLIER = 1 ↔
      (1 - cfg.SENS_MULTIPLIER) * cfg.SENS_RAMP_UP_MS ≤
        n * polling_ms cfg) := by
  have hpms : 0 < polling_ms cfg := by
    unfold polling_ms
    positivity
  have hsd : step_down cfg = polling_ms cfg / cfg.SENS_RAMP_DOWN_MS := by
    unfold step_down
    rw [one_div_div]
  have hsu : step_up cfg = polling_ms cfg / cfg.SENS_RAMP_UP_MS := by
    unfold step_up
    rw [one_div_div]
  have hsd0 : 0 ≤ step_down cfg := by rw [hsd]; positivity
  have hsu0 : 0 ≤ step_up cfg := by rw [hsu]; positivity
  constructor
  · rw [rampTick_iterate_down cfg hm hsd0 n, max_eq_left_iff, hsd]
    constructor
    · intro h
      have h2 : 1 - cfg.SENS_MULTIPLIER ≤
          n * polling_ms cfg / cfg.SENS_RAMP_DOWN_MS := by
        rw [mul_div_assoc]
        linarith
      have h3 := (le_div_iff₀ hrd).mp h2
      linarith
    · intro h
      have h2 : 1 - cfg.SENS_MULTIPLIER ≤
          n * polling_ms cfg / cfg.SENS_RAMP_DOWN_MS :=
        (le_div_iff₀ hrd).mpr (by linarith)
      rw [mul_div_assoc] at h2
      linarith
  · rw [rampTick_iterate_up cfg hm hsu0 n, min_eq_left_iff, hsu]
    constructor
    · intro h
      have h2 : 1 - cfg.SENS_MULTIPLIER ≤
          n * polling_ms cfg / cfg.SENS_RAMP_UP_MS := by
        rw [mul_div_assoc]
        linarith
      have h3 := (le_div_iff₀ hru).mp h2
      linarith
    · intro h
      have h2 : 1 - cfg.SENS_MULTIPLIER ≤
          n * polling_ms cfg / cfg.SENS_RAMP_UP_MS :=
        (le_div_iff₀ hru).mpr (by linarith)
      rw [mul_div_assoc] at h2
      linarith

/-- Witness for the amended C4 at the default configuration: the down-ramp
is complete at tick 5 (20 ms = (1 − 0.5)·40 ms) and the up-ramp at tick 2
(8 ms ≥ (1 − 0.5)·15 ms = 7.5 ms). -/
theorem ramp_durations_witness :
    (rampTick defaultConfig defaultConfig.SENS_MULTIPLIER)^[5] 1 =
      defaultConfig.SENS_MULTIPLIER ∧
    (rampTick defaultConfig 1)^[2] defaultConfig.SENS_MULTIPLIER = 1 :=
  ⟨(ramp_durations defaultConfig (by norm_num [defaultConfig])
      (by norm_num [defaultConfig]) (by norm_num [defaultConfig])
      (by norm_num [defaultConfig]) 5).1.mpr
      (by norm_num [defaultConfig, polling_ms]),
   (ramp_durations defaultConfig (by norm_num [defaultConfig])
      (by norm_num [defaultConfig]) (by norm_num [defaultConfig])
      (by norm_num [defaultConfig]) 2).2.mpr
      (by norm_num [defaultConfig, polling_ms])⟩

/-- C5: on a damping tick with `weight < 0.995` and nonzero observed
displacement `(dx, dy)` from `last_pos`, the correction is
`(rx, ry) = (dx, dy)·(weight − 1)`; the relative move is issued only when
`|rx| ≥ 1` or `|ry| ≥ 1`, and then `last_pos` becomes the current position
plus the (integer-truncated, as the OS applies it) correction — including
the loop's own correction, not the raw position; a sub-pixel correction
issues no move and resynchronizes `last_pos` to the raw current position. -/
theorem applyCounterMove_correction (w : ℚ) (last curr : Point)
    (hw : w < 995/1000) (hne : curr.x - last.x ≠ 0 ∨ curr.y - last.y ≠ 0) :
    ((1 ≤ |((curr.x - last.x : ℤ) : ℚ) * (w - 1)| ∨
        1 ≤ |((curr.y - last.y : ℤ) : ℚ) * (w - 1)|) →
      applyCounterMove w last (some curr) =
        (⟨curr.x + intTrunc (((curr.x - last.x : ℤ) : ℚ) * (w - 1)),
          curr.y + intTrunc (((curr.y - last.y : ℤ) : ℚ) * (w - 1))⟩,
         MoveAction.move
           (intTrunc (((curr.x - last.x : ℤ) : ℚ) * (w - 1)))
           (intTrunc (((curr.y - last.y : ℤ) : ℚ) * (w - 1))))) ∧
    (¬ (1 ≤ |((curr.x - last.x : ℤ) : ℚ) * (w - 1)| ∨
        1 ≤ |((curr.y - last.y : ℤ) : ℚ) * (w - 1)|) →
      applyCounterMove w last (some curr) = (curr, MoveAction.idle)) := by
  unfold applyCounterMove
  rw [if_pos hw]
  constructor
  · intro h
    dsimp only
    rw [if_pos hne, if_pos h]
  · intro h
    dsimp only
    rw [if_pos hne, if_neg h]

/-- Witness for C5: weight `0.5`, displacement `(10, 0)` — the correction
`(−5, 0)` registers as a full pixel, is issued, and is folded into
`last_pos`. -/
theorem applyCounterMove_correction_witness :
    (1 : ℚ)/2 < 995/1000 ∧
    applyCounterMove (1/2) ⟨0, 0⟩ (some ⟨10, 0⟩) =
      (⟨5, 0⟩, MoveAction.move (-5) 0) := by
  refine ⟨by norm_num, ?_⟩
  have h := (applyCounterMove_correction (1/2) ⟨0, 0⟩ ⟨10, 0⟩ (by norm_num)
    (by norm_num)).1 (by norm_num)
  rw [h]
  norm_num [intTrunc, Int.ceil_neg, Int.floor_ofNat]

/-- C9 fails on the code: when the cursor query fails on a damping tick the
code assigns the freshly zero-initialized `POINT` to `last_pos` instead of
keeping the old position, so the next successful tick sees a phantom
displacement from `(0, 0)` and issues a large spurious corrective move even
though the cursor never moved. -/
theorem cursor_failure_spurious_move :
    (applyCounterMove (1/2) ⟨100, 100⟩ none).1 = ⟨0, 0⟩ ∧
    (applyCounterMove (1/2) ⟨100, 100⟩ none).2 = MoveAction.idle ∧
    (applyCounterMove (1/2) ⟨0, 0⟩ (some ⟨100, 100⟩)).2 =
      MoveAction.move (-50) (-50) := by
  refine ⟨?_, ?_, ?_⟩
  · norm_num [applyCounterMove]
  · norm_num [applyCounterMove]
  · norm_num [applyCounterMove, intTrunc, Int.ceil_neg, Int.floor_ofNat]

end ClickBooster

